import Mathlib

/-!
Verification of the NearDoer core (src/app.py) against its natural-language
specification.  The development shallowly embeds the task lifecycle manager
(create_task / accept_task / complete_task), the ranking pipeline
(rank_tasks_by_match, built on TfidfVectorizer + cosine_similarity), and the
password-hash helpers (_pbkdf2_hash / _pbkdf2_verify) as pure Lean functions,
and proves or refutes the frozen claims about them.

Modelling conventions:
  - the sqlite tasks table is a finite map from row id to row; an SQL
    UPDATE ... WHERE id=? AND status=? is a pure function on that map that
    also returns the number of matched rows (the cursor rowcount), which is
    the storage-level success/rejection signal of the conditional write;
  - timestamps (datetime.utcnow().isoformat()) are abstract instants, passed
    in as an explicit `now` parameter of type Nat;
  - float64 arithmetic of numpy/scikit-learn is idealised as real arithmetic;
  - PBKDF2-HMAC-SHA256 at 100000 iterations (hashlib.pbkdf2_hmac) is an
    external primitive, taken as an abstract parameter
    `f : List Nat → List Nat → List Nat` from (password bytes, salt bytes)
    to derived-key bytes.
-/

namespace NearDoer

/-- Task status enum of the tasks table: CHECK(status IN ('Open','Accepted','Completed')). -/
inductive Status where
  | Open
  | Accepted
  | Completed
deriving DecidableEq, Repr

/-- Row of the tasks table (column id is the key of the store, not a field). -/
structure TaskRow where
  title : String
  description : String
  category : String
  price : String
  zip : String
  status : Status
  posted_by : Nat
  accepted_by : Option Nat
  created_at : Nat
  updated_at : Nat
deriving DecidableEq, Repr

/-- Persisted tasks table: row id to row. -/
def TaskDB : Type := Nat → Option TaskRow

/-- Empty tasks table. -/
def emptyTaskDB : TaskDB := fun _ => none

/-- Lean model of create_task (src/app.py lines 156-165): INSERT a fresh row
with status 'Open', accepted_by NULL, created_at = updated_at = now.  The
AUTOINCREMENT id is passed explicitly; freshness is a hypothesis where needed. -/
def create_task (db : TaskDB) (id : Nat) (title description category price zip_code : String)
    (posted_by : Nat) (now : Nat) : TaskDB :=
  fun i =>
    if i = id then
      some { title := title, description := description, category := category,
             price := price, zip := zip_code, status := Status.Open,
             posted_by := posted_by, accepted_by := none,
             created_at := now, updated_at := now }
    else db i

/-- Lean model of accept_task (src/app.py lines 167-176):
UPDATE tasks SET status='Accepted', accepted_by=?, updated_at=?
WHERE id=? AND status='Open'.
The sqlite UPDATE is a single atomic conditional write; the second component
is the number of matched rows (cursor rowcount), 1 when the guarded write
fired and 0 when the row is missing or not 'Open'. -/
def accept_task (db : TaskDB) (task_id helper_id : Nat) (now : Nat) : TaskDB × Nat :=
  match db task_id with
  | some t =>
      if t.status = Status.Open then
        (fun i =>
          if i = task_id then
            some { t with status := Status.Accepted,
                          accepted_by := some helper_id,
                          updated_at := now }
          else db i, 1)
      else (db, 0)
  | none => (db, 0)

/-- Lean model of complete_task (src/app.py lines 178-187):
UPDATE tasks SET status='Completed', updated_at=? WHERE id=? AND status='Accepted'. -/
def complete_task (db : TaskDB) (task_id : Nat) (now : Nat) : TaskDB × Nat :=
  match db task_id with
  | some t =>
      if t.status = Status.Accepted then
        (fun i =>
          if i = task_id then
            some { t with status := Status.Completed, updated_at := now }
          else db i, 1)
      else (db, 0)
  | none => (db, 0)

/-- One lifecycle operation on the tasks table, as issued by the app: an
INSERT of a fresh row, or one of the two guarded UPDATEs. -/
inductive Step : TaskDB → TaskDB → Prop where
  | create (db : TaskDB) (id : Nat) (title description category price zip_code : String)
      (posted_by now : Nat) (hfresh : db id = none) :
      Step db (create_task db id title description category price zip_code posted_by now)
  | accept (db : TaskDB) (task_id helper_id now : Nat) :
      Step db (accept_task db task_id helper_id now).1
  | complete (db : TaskDB) (task_id now : Nat) :
      Step db (complete_task db task_id now).1

/-- Task stores reachable from the empty table by lifecycle operations. -/
inductive Reach : TaskDB → Prop where
  | init : Reach emptyTaskDB
  | step {db db' : TaskDB} : Reach db → Step db db' → Reach db'

/-- Data-model invariant of the spec: accepted_by is non-null exactly on
Accepted and Completed rows. -/
def Inv (db : TaskDB) : Prop :=
  ∀ id t, db id = some t →
    (t.accepted_by ≠ none ↔ (t.status = Status.Accepted ∨ t.status = Status.Completed))

/-- Forward order on statuses: Open before Accepted before Completed,
no backward movement. -/
def statusForward : Status → Status → Bool
  | Status.Open, _ => true
  | Status.Accepted, Status.Accepted => true
  | Status.Accepted, Status.Completed => true
  | Status.Completed, Status.Completed => true
  | _, _ => false

/-! Password-hash helpers (src/app.py lines 16-34). -/

/-- Hex string of a byte list, two lowercase digits per byte (bytes.hex()). -/
def byteToHex (b : Nat) : String :=
  String.mk [Nat.digitChar (b / 16), Nat.digitChar (b % 16)]

/-- Hex encoding of a whole byte string. -/
def bytesHex (bs : List Nat) : String :=
  String.join (bs.map byteToHex)

/-- Value of one hex digit, none for a non-hex character. -/
def hexVal (c : Char) : Option Nat :=
  if '0' ≤ c ∧ c ≤ '9' then some (c.toNat - '0'.toNat)
  else if 'a' ≤ c ∧ c ≤ 'f' then some (c.toNat - 'a'.toNat + 10)
  else if 'A' ≤ c ∧ c ≤ 'F' then some (c.toNat - 'A'.toNat + 10)
  else none

/-- Parse a hex character list two digits at a time; none on odd length or a
non-hex character. -/
def hexPairs : List Char → Option (List Nat)
  | [] => some []
  | [_] => none
  | c₁ :: c₂ :: rest => do
      let h ← hexVal c₁
      let l ← hexVal c₂
      let bs ← hexPairs rest
      pure ((16 * h + l) :: bs)

/-- Lean model of bytes.fromhex: spaces between byte pairs are skipped,
anything else malformed yields none (a ValueError in Python). -/
def bytesFromHex (s : String) : Option (List Nat) :=
  hexPairs (s.toList.filter fun c => c != ' ')

/-- UTF-8 bytes of a string (str.encode of Python). -/
def utf8Bytes (s : String) : List Nat :=
  s.toUTF8.toList.map UInt8.toNat

/-- Lean model of _pbkdf2_hash (src/app.py lines 16-25): returns
salt_hex ++ "$" ++ dk_hex where dk = pbkdf2_hmac(sha256, password, salt,
100000).  The key-derivation primitive is the abstract parameter f; the salt
(os.urandom(16) when absent) is passed explicitly. -/
def _pbkdf2_hash (f : List Nat → List Nat → List Nat) (password : String) (salt : List Nat) :
    String :=
  bytesHex salt ++ "$" ++ bytesHex (f (utf8Bytes password) salt)

/-- Split a character list at the first occurrence of sep (str.split(sep, 1)
when it yields two parts); none when sep does not occur. -/
def splitCharFirst (sep : Char) : List Char → Option (List Char × List Char)
  | [] => none
  | c :: cs =>
      if c = sep then some ([], cs)
      else (splitCharFirst sep cs).map fun p => (c :: p.1, p.2)

/-- First part and rest of s.split(sep, 1), as strings. -/
def splitFirst (sep : Char) (s : String) : Option (String × String) :=
  (splitCharFirst sep s.toList).map fun p => (String.mk p.1, String.mk p.2)

/-- Part after the first sep, used for _pbkdf2_hash(...).split(sep, 1)[1];
the hash string always contains the separator. -/
def afterFirst (sep : Char) (s : String) : String :=
  match splitCharFirst sep s.toList with
  | some p => String.mk p.2
  | none => ""

/-- The hashlib module has no attribute compare_digest (that function lives
in the hmac and secrets modules), so the attribute lookup
hashlib.compare_digest in the source raises AttributeError. -/
def hashlib_compare_digest : Option (String → String → Bool) := none

/-- Body of the try block of _pbkdf2_verify (src/app.py lines 28-32), with
each fallible Python step made explicit: unpacking salted_hash.split into two
names raises ValueError when there is no dollar separator, bytes.fromhex
raises ValueError on malformed hex, and the hashlib.compare_digest attribute
lookup raises AttributeError. -/
def _pbkdf2_verify_body (f : List Nat → List Nat → List Nat)
    (password salted_hash : String) : Except String Bool :=
  match splitFirst '$' salted_hash with
  | none => Except.error "ValueError: not enough values to unpack"
  | some parts =>
      match bytesFromHex parts.1 with
      | none => Except.error "ValueError: non-hexadecimal number found in fromhex"
      | some salt =>
          let pwd_hash := afterFirst '$' (_pbkdf2_hash f password salt)
          match hashlib_compare_digest with
          | some cmp => Except.ok (cmp pwd_hash parts.2)
          | none => Except.error "AttributeError: module hashlib has no attribute compare_digest"

/-- Lean model of _pbkdf2_verify (src/app.py lines 27-34): the except clause
turns any raised error into False. -/
def _pbkdf2_verify (f : List Nat → List Nat → List Nat)
    (password salted_hash : String) : Bool :=
  match _pbkdf2_verify_body f password salted_hash with
  | Except.ok b => b
  | Except.error _ => false

/-! Ranking pipeline (src/app.py lines 216-230).  rank_tasks_by_match builds
one text document per task, fits a TfidfVectorizer(stop_words="english",
ngram_range=(1, 2)) on the documents plus the query, computes the cosine
similarity of every document row against the query row, and stable-sorts the
(task, score) pairs by descending score (list.sort with key and
reverse=True). -/

/-- Document string of a task (line 222): title, description and category
joined by single spaces. -/
def taskDoc (t : TaskRow) : String :=
  t.title ++ " " ++ t.description ++ " " ++ t.category

/-- Word character of the default token pattern of scikit-learn
(regular-expression class w): letter, digit or underscore. -/
def isWordChar (c : Char) : Bool :=
  c.isAlphanum || c = '_'

/-- Maximal runs of characters satisfying keep, in order; the accumulator
holds the current run reversed. -/
def runsAux (keep : Char → Bool) : List Char → List Char → List (List Char)
  | [], acc => if acc.isEmpty then [] else [acc.reverse]
  | c :: cs, acc =>
      if keep c then runsAux keep cs (c :: acc)
      else if acc.isEmpty then runsAux keep cs []
      else acc.reverse :: runsAux keep cs []

/-- Tokenizer of TfidfVectorizer with its defaults: lowercase the text, then
take the maximal word-character runs of length at least two (token pattern
of two or more word characters between word boundaries). -/
def sk_tokenize (s : String) : List String :=
  ((runsAux isWordChar (s.toList.map Char.toLower) []).filter
      fun r => decide (2 ≤ r.length)).map fun r => String.mk r

/-- Fixed English stop-word list of scikit-learn
(sklearn.feature_extraction.text.ENGLISH_STOP_WORDS, from the Glasgow
Information Retrieval Group list). -/
def ENGLISH_STOP_WORDS : List String :=
  ["a", "about", "above", "across", "after", "afterwards", "again", "against",
   "all", "almost", "alone", "along", "already", "also", "although", "always",
   "am", "among", "amongst", "amoungst", "amount", "an", "and", "another",
   "any", "anyhow", "anyone", "anything", "anyway", "anywhere", "are",
   "around", "as", "at", "back", "be", "became", "because", "become",
   "becomes", "becoming", "been", "before", "beforehand", "behind", "being",
   "below", "beside", "besides", "between", "beyond", "bill", "both",
   "bottom", "but", "by", "call", "can", "cannot", "cant", "co", "computer",
   "con", "could", "couldnt", "cry", "de", "describe", "detail", "do", "done",
   "down", "due", "during", "each", "eg", "eight", "either", "eleven",
   "else", "elsewhere", "empty", "enough", "etc", "even", "ever", "every",
   "everyone", "everything", "everywhere", "except", "few", "fifteen",
   "fifty", "fill", "find", "fire", "first", "five", "for", "former",
   "formerly", "forty", "found", "four", "from", "front", "full", "further",
   "get", "give", "go", "had", "has", "hasnt", "have", "he", "hence", "her",
   "here", "hereafter", "hereby", "herein", "hereupon", "hers", "herself",
   "him", "himself", "his", "how", "however", "hundred", "i", "ie", "if",
   "in", "inc", "indeed", "interest", "into", "is", "it", "its", "itself",
   "keep", "last", "latter", "latterly", "least", "less", "ltd", "made",
   "many", "may", "me", "meanwhile", "might", "mill", "mine", "more",
   "moreover", "most", "mostly", "move", "much", "must", "my", "myself",
   "name", "namely", "neither", "never", "nevertheless", "next", "nine",
   "no", "nobody", "none", "noone", "nor", "not", "nothing", "now",
   "nowhere", "of", "off", "often", "on", "once", "one", "only", "onto",
   "or", "other", "others", "otherwise", "our", "ours", "ourselves", "out",
   "over", "own", "part", "per", "perhaps", "please", "put", "rather", "re",
   "same", "see", "seem", "seemed", "seeming", "seems", "serious", "several",
   "she", "should", "show", "side", "since", "sincere", "six", "sixty", "so",
   "some", "somehow", "someone", "something", "sometime", "sometimes",
   "somewhere", "still", "such", "system", "take", "ten", "than", "that",
   "the", "their", "them", "themselves", "then", "thence", "there",
   "thereafter", "thereby", "therefore", "therein", "thereupon", "these",
   "they", "thick", "thin", "third", "this", "those", "though", "three",
   "through", "throughout", "thru", "thus", "to", "together", "too", "top",
   "toward", "towards", "twelve", "twenty", "two", "un", "under", "until",
   "up", "upon", "us", "very", "via", "was", "we", "well", "were", "what",
   "whatever", "when", "whence", "whenever", "where", "whereafter",
   "whereas", "whereby", "wherein", "whereupon", "wherever", "whether",
   "which", "while", "whither", "who", "whoever", "whole", "whom", "whose",
   "why", "will", "with", "within", "without", "would", "yet", "you",
   "your", "yours", "yourself", "yourselves"]

/-- Stop-word removal applied to the token stream before n-gram building. -/
def removeStopWords (ts : List String) : List String :=
  ts.filter fun t => !(ENGLISH_STOP_WORDS.contains t)

/-- Adjacent bigrams of a token stream, joined with one space. -/
def bigrams : List String → List String
  | a :: b :: rest => (a ++ " " ++ b) :: bigrams (b :: rest)
  | _ => []

/-- Analyzer of TfidfVectorizer(stop_words="english", ngram_range=(1, 2)):
tokenize, drop stop words, then emit the surviving unigrams followed by the
adjacent bigrams of the surviving token stream. -/
def analyze (s : String) : List String :=
  let ts := removeStopWords (sk_tokenize s)
  ts ++ bigrams ts

/-- Analyzed corpus fitted by the vectorizer: every task document followed by
the query as one extra document (line 225). -/
def analyzedCorpus (tasks : List TaskRow) (query : String) : List (List String) :=
  ((tasks.map taskDoc) ++ [query]).map analyze

/-- Vocabulary of the fit: every n-gram occurring in some corpus document.
fit_transform raises ValueError when this is empty. -/
def vocabOf (corpus : List (List String)) : List String :=
  corpus.flatten.dedup

/-- Vocabulary fitted by rank_tasks_by_match on the given tasks and query. -/
def vocabFor (tasks : List TaskRow) (query : String) : List String :=
  vocabOf (analyzedCorpus tasks query)

/-- Raw term frequency of term t in an analyzed document. -/
def tf (d : List String) (t : String) : Nat :=
  d.count t

/-- Document frequency of term t across the corpus. -/
def df (corpus : List (List String)) (t : String) : Nat :=
  corpus.countP fun d => d.contains t

/-- Smoothed inverse document frequency of TfidfTransformer defaults:
log((1 + n) / (1 + df)) + 1 over the n corpus documents. -/
noncomputable def idf (corpus : List (List String)) (t : String) : ℝ :=
  Real.log ((1 + corpus.length) / (1 + df corpus t)) + 1

/-- Tf-idf weight of term t in document d, relative to the corpus. -/
noncomputable def tfidfWeight (corpus : List (List String)) (d : List String) (t : String) : ℝ :=
  (tf d t : ℝ) * idf corpus t

/-- Dot product of two term-weight vectors over the vocabulary V. -/
noncomputable def dotV (V : List String) (u v : String → ℝ) : ℝ :=
  (V.map fun t => u t * v t).sum

/-- Euclidean norm of a term-weight vector over V. -/
noncomputable def normV (V : List String) (u : String → ℝ) : ℝ :=
  Real.sqrt (dotV V u u)

/-- L2 row normalisation of sklearn (normalize with norm l2): rows of zero
norm are left unchanged (their norm divisor is replaced by one). -/
noncomputable def l2normalize (V : List String) (u : String → ℝ) : String → ℝ :=
  fun t => if normV V u = 0 then u t else u t / normV V u

/-- Cosine similarity of the tf-idf rows of document d and query q, as
computed by TfidfTransformer l2 normalisation followed by cosine_similarity
(which renormalises, leaving unit rows unchanged and zero rows at zero). -/
noncomputable def cosineScore (V : List String) (corpus : List (List String))
    (d q : List String) : ℝ :=
  dotV V (l2normalize V (tfidfWeight corpus d)) (l2normalize V (tfidfWeight corpus q))

/-- Score that rank_tasks_by_match assigns to one task of the candidate
list, against the given query. -/
noncomputable def scoreOf (tasks : List TaskRow) (query : String) (t : TaskRow) : ℝ :=
  cosineScore (vocabFor tasks query) (analyzedCorpus tasks query)
    (analyze (taskDoc t)) (analyze query)

/-- Lean model of rank_tasks_by_match (src/app.py lines 219-230).  An empty
candidate list returns [] at once.  Otherwise the vectorizer is fitted on the
documents plus the query; fit_transform raises ValueError when no n-gram
survives tokenisation and stop-word removal (empty vocabulary), modelled as
the error case.  Otherwise every task is paired with its cosine score and the
pairs are stable-sorted by descending score (list.sort with key x[1] and
reverse=True, a stable sort). -/
noncomputable def rank_tasks_by_match (tasks : List TaskRow) (helper_keywords : String) :
    Except String (List (TaskRow × ℝ)) :=
  if tasks = [] then Except.ok []
  else
    let docs := tasks.map taskDoc
    let query := helper_keywords
    let corpus := (docs ++ [query]).map analyze
    let V := vocabOf corpus
    if V = [] then
      Except.error "ValueError: empty vocabulary; perhaps the documents only contain stop words"
    else
      let scores := docs.map fun d => cosineScore V corpus (analyze d) (analyze query)
      let with_scores := tasks.zip scores
      Except.ok (with_scores.mergeSort fun a b => decide (b.2 ≤ a.2))

/-- Modelled from the spec (degenerate-corpus rule of the Scorer contract):
tokens of the fallback are the whitespace- or comma-separated lowercase
chunks of length greater than one.  This definition follows the words of the
spec; the source has no such fallback, and the two are compared in the
theorems below. -/
def specFallbackTerms (s : String) : List String :=
  (runsAux (fun c => !(c.isWhitespace || c = ',')) (s.toList.map Char.toLower) []).filter
      (fun r => decide (1 < r.length)) |>.map fun r => String.mk r

/-- Modelled from the spec (degenerate-corpus rule of the Scorer contract):
fallback score of a document against a query, the size of the intersection
of their term sets. -/
def specFallbackScore (query doc : String) : Nat :=
  ((specFallbackTerms query).dedup.filter fun t => (specFallbackTerms doc).contains t).length

/-! Concrete fixtures used to instantiate the theorems below. -/

/-- Sample open task row. -/
def rowC1 : TaskRow :=
  { title := "Fix sink", description := "leaky kitchen faucet", category := "Other",
    price := "20", zip := "02139", status := Status.Open, posted_by := 1,
    accepted_by := none, created_at := 0, updated_at := 0 }

/-- Store holding one open task at id 1. -/
def dbC1 : TaskDB := fun i => if i = 1 then some rowC1 else none

/-- Another open task row. -/
def rowC2 : TaskRow :=
  { rowC1 with title := "Walk dog", description := "evening walk around the block" }

/-- Store holding one open task at id 4, raced on by two helpers. -/
def dbC2 : TaskDB := fun i => if i = 4 then some rowC2 else none

/-- Already accepted task row. -/
def rowC3a : TaskRow :=
  { rowC1 with title := "Assemble desk", status := Status.Accepted, accepted_by := some 6 }

/-- Open task row used for the rejected complete call. -/
def rowC3b : TaskRow := { rowC1 with title := "Rake leaves" }

/-- Store with an accepted task at id 1 and an open task at id 2. -/
def dbC3 : TaskDB :=
  fun i => if i = 1 then some rowC3a else if i = 2 then some rowC3b else none

/-- Store reached by one create operation. -/
def dbC4a : TaskDB :=
  create_task emptyTaskDB 1 "Hang shelf" "two brackets and a level" "Assembly" "15" "02139" 3 0

/-- Store reached by a create operation followed by an accept operation. -/
def dbC4b : TaskDB := (accept_task dbC4a 1 7 5).1

/-- Row held at id 1 of the created store. -/
def rowC4open : TaskRow :=
  { title := "Hang shelf", description := "two brackets and a level", category := "Assembly",
    price := "15", zip := "02139", status := Status.Open, posted_by := 3,
    accepted_by := none, created_at := 0, updated_at := 0 }

/-- Row held at id 1 after the accept operation. -/
def rowC4acc : TaskRow :=
  { rowC4open with status := Status.Accepted, accepted_by := some 7, updated_at := 5 }

/-- Task row whose document contributes no vocabulary term: its only token of
length at least two is a stop word, the rest are single characters. -/
def rowC5 : TaskRow := { rowC1 with title := "The", description := "x y", category := "z" }

/-- Task row made only of stop words and single characters, blank-query case. -/
def rowC6e : TaskRow := { rowC1 with title := "An", description := "of a", category := "the" }

/-- Task row with real vocabulary terms, blank-query case. -/
def rowC6w : TaskRow :=
  { rowC1 with title := "Mow lawn", description := "yard cleanup", category := "Yardwork" }

/-- Task row made only of stop words, sortedness-claim error case. -/
def rowC8e : TaskRow := { rowC1 with title := "Be", description := "was were", category := "been" }

/-- Task row with real vocabulary terms, sortedness-claim witness. -/
def rowC8w : TaskRow :=
  { rowC1 with title := "Assemble shelf", description := "furniture assembly needed",
               category := "Assembly" }

/-- Task row made only of stop words, totality-claim error case. -/
def rowC9e : TaskRow := { rowC1 with title := "And", description := "to it", category := "is" }

/-- Task row with real vocabulary terms, totality-claim witness. -/
def rowC9w : TaskRow :=
  { rowC1 with title := "Clean garage", description := "sweep and organize boxes",
               category := "Cleaning" }

/-! Helper lemmas shared by the claim theorems. -/

theorem zip_map_self {α β : Type} (l : List α) (g : α → β) :
    l.zip (l.map g) = l.map fun a => (a, g a) := by
  induction l with
  | nil => rfl
  | cons a t ih => simp [List.zip_cons_cons, ih]

theorem map_fst_pairs (tasks : List TaskRow) (g : TaskRow → ℝ) :
    List.map Prod.fst (tasks.map fun t => (t, g t)) = tasks := by
  induction tasks with
  | nil => rfl
  | cons a l ih => simp [ih]

theorem pairwise_of_all {α : Type} (R : α → α → Prop) (h : ∀ a b, R a b) :
    ∀ l : List α, l.Pairwise R
  | [] => List.Pairwise.nil
  | a :: t => List.Pairwise.cons (fun b _ => h a b) (pairwise_of_all R h t)

theorem dotV_eq_zero_left (V : List String) (u v : String → ℝ) (h : ∀ t ∈ V, u t = 0) :
    dotV V u v = 0 := by
  apply List.sum_eq_zero
  intro x hx
  simp only [List.mem_map] at hx
  obtain ⟨t, ht, rfl⟩ := hx
  rw [h t ht, zero_mul]

theorem dotV_eq_zero_right (V : List String) (u v : String → ℝ) (h : ∀ t ∈ V, v t = 0) :
    dotV V u v = 0 := by
  apply List.sum_eq_zero
  intro x hx
  simp only [List.mem_map] at hx
  obtain ⟨t, ht, rfl⟩ := hx
  rw [h t ht, mul_zero]

theorem l2normalize_zero_at (V : List String) (u : String → ℝ) (t : String) (h : u t = 0) :
    l2normalize V u t = 0 := by
  unfold l2normalize
  split <;> simp [h]

theorem tfidfWeight_zero (corpus : List (List String)) (d : List String) (t : String)
    (h : tf d t = 0) : tfidfWeight corpus d t = 0 := by
  unfold tfidfWeight
  rw [h]
  simp

theorem cosineScore_zero_left (V : List String) (corpus : List (List String))
    (d q : List String) (hd : ∀ t ∈ V, tf d t = 0) : cosineScore V corpus d q = 0 := by
  unfold cosineScore
  apply dotV_eq_zero_left
  intro t ht
  exact l2normalize_zero_at _ _ _ (tfidfWeight_zero _ _ _ (hd t ht))

theorem cosineScore_zero_right (V : List String) (corpus : List (List String))
    (d q : List String) (hq : ∀ t ∈ V, tf q t = 0) : cosineScore V corpus d q = 0 := by
  unfold cosineScore
  apply dotV_eq_zero_right
  intro t ht
  exact l2normalize_zero_at _ _ _ (tfidfWeight_zero _ _ _ (hq t ht))

theorem isWordChar_toLower_false_of_ws (c : Char) (h : c.isWhitespace = true) :
    isWordChar c.toLower = false := by
  simp only [Char.isWhitespace, Bool.or_eq_true, decide_eq_true_eq] at h
  rcases h with ((h | h) | h) | h <;> subst h <;> decide

theorem runsAux_nil_of_none (keep : Char → Bool) (l : List Char)
    (h : ∀ c ∈ l, keep c = false) : runsAux keep l [] = [] := by
  induction l with
  | nil => rfl
  | cons c cs ih =>
      unfold runsAux
      rw [h c (List.mem_cons_self c cs)]
      simp only [Bool.false_eq_true, if_false, List.isEmpty_nil, if_true]
      exact ih fun c' hc' => h c' (List.mem_cons_of_mem c hc')

theorem sk_tokenize_blank (s : String) (h : ∀ c ∈ s.toList, c.isWhitespace = true) :
    sk_tokenize s = [] := by
  unfold sk_tokenize
  rw [runsAux_nil_of_none]
  · rfl
  · intro c hc
    simp only [List.mem_map] at hc
    obtain ⟨c0, hc0, rfl⟩ := hc
    exact isWordChar_toLower_false_of_ws c0 (h c0 hc0)

theorem analyze_blank (s : String) (h : ∀ c ∈ s.toList, c.isWhitespace = true) :
    analyze s = [] := by
  unfold analyze
  rw [sk_tokenize_blank s h]
  rfl

theorem scoreOf_blank (tasks : List TaskRow) (q : String) (t : TaskRow)
    (hq : analyze q = []) : scoreOf tasks q t = 0 := by
  unfold scoreOf
  rw [hq]
  apply cosineScore_zero_right
  intro t' _
  rfl

theorem rankLE_trans (a b c : TaskRow × ℝ)
    (hab : decide (b.2 ≤ a.2) = true) (hbc : decide (c.2 ≤ b.2) = true) :
    decide (c.2 ≤ a.2) = true := by
  simp only [decide_eq_true_eq] at *
  exact le_trans hbc hab

theorem rankLE_total (a b : TaskRow × ℝ) :
    (decide (b.2 ≤ a.2) || decide (a.2 ≤ b.2)) = true := by
  rcases le_total b.2 a.2 with h | h <;> simp [h]

theorem rank_eq_ok (tasks : List TaskRow) (q : String) (hne : tasks ≠ [])
    (hV : vocabFor tasks q ≠ []) :
    rank_tasks_by_match tasks q =
      Except.ok ((tasks.map fun t => (t, scoreOf tasks q t)).mergeSort
        fun a b => decide (b.2 ≤ a.2)) := by
  unfold rank_tasks_by_match
  rw [if_neg hne]
  dsimp only
  have hV' : vocabOf (List.map analyze (List.map taskDoc tasks ++ [q])) ≠ [] := hV
  rw [if_neg hV']
  congr 1
  rw [List.map_map]
  rw [zip_map_self]
  rfl

theorem rank_eq_error (tasks : List TaskRow) (q : String) (hne : tasks ≠ [])
    (hV : vocabFor tasks q = []) :
    rank_tasks_by_match tasks q =
      Except.error
        "ValueError: empty vocabulary; perhaps the documents only contain stop words" := by
  unfold rank_tasks_by_match
  rw [if_neg hne]
  dsimp only
  have hV' : vocabOf (List.map analyze (List.map taskDoc tasks ++ [q])) = [] := hV
  rw [if_pos hV']

theorem accept_fire (db : TaskDB) (tid hid now : Nat) (t : TaskRow)
    (hdb : db tid = some t) (hopen : t.status = Status.Open) :
    accept_task db tid hid now =
      (fun i => if i = tid then
          some { t with status := Status.Accepted, accepted_by := some hid, updated_at := now }
        else db i, 1) := by
  unfold accept_task
  rw [hdb]
  dsimp only
  rw [if_pos hopen]

theorem accept_nofire (db : TaskDB) (tid hid now : Nat)
    (h : ∀ t, db tid = some t → t.status ≠ Status.Open) :
    accept_task db tid hid now = (db, 0) := by
  unfold accept_task
  cases hdb : db tid with
  | none => rfl
  | some t =>
      dsimp only
      rw [if_neg (h t hdb)]

theorem complete_fire (db : TaskDB) (tid now : Nat) (t : TaskRow)
    (hdb : db tid = some t) (hacc : t.status = Status.Accepted) :
    complete_task db tid now =
      (fun i => if i = tid then
          some { t with status := Status.Completed, updated_at := now }
        else db i, 1) := by
  unfold complete_task
  rw [hdb]
  dsimp only
  rw [if_pos hacc]

theorem complete_nofire (db : TaskDB) (tid now : Nat)
    (h : ∀ t, db tid = some t → t.status ≠ Status.Accepted) :
    complete_task db tid now = (db, 0) := by
  unfold complete_task
  cases hdb : db tid with
  | none => rfl
  | some t =>
      dsimp only
      rw [if_neg (h t hdb)]

theorem accept_task_fst (db : TaskDB) (tid hid now id : Nat) :
    (accept_task db tid hid now).1 id = db id
    ∨ ∃ t, db tid = some t ∧ t.status = Status.Open ∧ id = tid
        ∧ (accept_task db tid hid now).1 id =
            some { t with status := Status.Accepted, accepted_by := some hid,
                          updated_at := now } := by
  cases hdb : db tid with
  | none =>
      left
      rw [accept_nofire db tid hid now (fun t h => by rw [hdb] at h; exact absurd h (by simp))]
  | some t =>
      by_cases hopen : t.status = Status.Open
      · by_cases hidt : id = tid
        · right
          exact ⟨t, rfl, hopen, hidt, by rw [accept_fire db tid hid now t hdb hopen]; simp [hidt]⟩
        · left
          rw [accept_fire db tid hid now t hdb hopen]
          simp [hidt]
      · left
        rw [accept_nofire db tid hid now
          (fun t' h => by rw [hdb] at h; injection h with h2; rw [← h2]; exact hopen)]

theorem complete_task_fst (db : TaskDB) (tid now id : Nat) :
    (complete_task db tid now).1 id = db id
    ∨ ∃ t, db tid = some t ∧ t.status = Status.Accepted ∧ id = tid
        ∧ (complete_task db tid now).1 id =
            some { t with status := Status.Completed, updated_at := now } := by
  cases hdb : db tid with
  | none =>
      left
      rw [complete_nofire db tid now (fun t h => by rw [hdb] at h; exact absurd h (by simp))]
  | some t =>
      by_cases hacc : t.status = Status.Accepted
      · by_cases hidt : id = tid
        · right
          exact ⟨t, rfl, hacc, hidt, by rw [complete_fire db tid now t hdb hacc]; simp [hidt]⟩
        · left
          rw [complete_fire db tid now t hdb hacc]
          simp [hidt]
      · left
        rw [complete_nofire db tid now
          (fun t' h => by rw [hdb] at h; injection h with h2; rw [← h2]; exact hacc)]

theorem statusForward_refl (s : Status) : statusForward s s = true := by
  cases s <;> rfl

theorem create_task_at (db : TaskDB) (id : Nat)
    (title description category price zip_code : String) (posted_by now i : Nat) :
    create_task db id title description category price zip_code posted_by now i =
      if i = id then
        some { title := title, description := description, category := category,
               price := price, zip := zip_code, status := Status.Open,
               posted_by := posted_by, accepted_by := none,
               created_at := now, updated_at := now }
      else db i := rfl

theorem step_forward {db db' : TaskDB} (h : Step db db') :
    ∀ id t t', db id = some t → db' id = some t' →
      statusForward t.status t'.status = true
      ∧ (t.status = Status.Completed → t'.accepted_by = t.accepted_by) := by
  intro id t t' hdb hdb'
  cases h with
  | create id0 title description category price zip_code posted_by now hfresh =>
      by_cases hid : id = id0
      · subst hid
        rw [hfresh] at hdb
        exact absurd hdb (by simp)
      · rw [create_task_at, if_neg hid, hdb] at hdb'
        injection hdb' with h2
        subst h2
        exact ⟨statusForward_refl _, fun _ => rfl⟩
  | accept tid hid0 now =>
      rcases accept_task_fst db tid hid0 now id with hsame | ⟨t0, hdb0, hopen0, hidt, heq⟩
      · rw [hsame, hdb] at hdb'
        injection hdb' with h2
        subst h2
        exact ⟨statusForward_refl _, fun _ => rfl⟩
      · subst hidt
        rw [hdb] at hdb0
        injection hdb0 with h2
        subst h2
        rw [heq] at hdb'
        injection hdb' with h3
        subst h3
        refine ⟨by rw [hopen0]; rfl, ?_⟩
        intro hc
        rw [hopen0] at hc
        exact absurd hc (by decide)
  | complete tid now =>
      rcases complete_task_fst db tid now id with hsame | ⟨t0, hdb0, hacc0, hidt, heq⟩
      · rw [hsame, hdb] at hdb'
        injection hdb' with h2
        subst h2
        exact ⟨statusForward_refl _, fun _ => rfl⟩
      · subst hidt
        rw [hdb] at hdb0
        injection hdb0 with h2
        subst h2
        rw [heq] at hdb'
        injection hdb' with h3
        subst h3
        exact ⟨by rw [hacc0]; rfl, fun _ => rfl⟩

theorem step_preserves_inv {db db' : TaskDB} (hinv : Inv db) (h : Step db db') : Inv db' := by
  intro id t' hdb'
  cases h with
  | create id0 title description category price zip_code posted_by now hfresh =>
      by_cases hid : id = id0
      · subst hid
        rw [create_task_at, if_pos rfl] at hdb'
        injection hdb' with h2
        subst h2
        simp
      · rw [create_task_at, if_neg hid] at hdb'
        exact hinv id t' hdb'
  | accept tid hid0 now =>
      rcases accept_task_fst db tid hid0 now id with hsame | ⟨t0, hdb0, hopen0, hidt, heq⟩
      · rw [hsame] at hdb'
        exact hinv id t' hdb'
      · rw [heq] at hdb'
        injection hdb' with h2
        subst h2
        simp
  | complete tid now =>
      rcases complete_task_fst db tid now id with hsame | ⟨t0, hdb0, hacc0, hidt, heq⟩
      · rw [hsame] at hdb'
        exact hinv id t' hdb'
      · rw [heq] at hdb'
        injection hdb' with h2
        subst h2
        have h3 := (hinv tid t0 hdb0).mpr (Or.inl hacc0)
        simpa using h3

/-! Claim theorems. -/

/-- Claim C1: accept transitions a task from Open to Accepted only if its
current persisted status is Open at the moment of the update; when it fires
it sets the accepter reference to the helper id and refreshes the updated
timestamp in the same single atomic conditional write (matched-row count 1,
all other rows untouched); when the task is not Open or does not exist, no
task field changes (the whole store is returned unchanged). -/
theorem accept_task_conditional_write (db : TaskDB) (task_id helper_id now : Nat) :
    (∀ t, db task_id = some t → t.status = Status.Open →
        (accept_task db task_id helper_id now).1 task_id =
            some { t with status := Status.Accepted, accepted_by := some helper_id,
                          updated_at := now }
          ∧ (accept_task db task_id helper_id now).2 = 1
          ∧ ∀ i, i ≠ task_id → (accept_task db task_id helper_id now).1 i = db i)
    ∧ ((∀ t, db task_id = some t → t.status ≠ Status.Open) →
        accept_task db task_id helper_id now = (db, 0)) := by
  constructor
  · intro t hdb hopen
    rw [accept_fire db task_id helper_id now t hdb hopen]
    refine ⟨by simp, rfl, ?_⟩
    intro i hi
    simp [hi]
  · exact accept_nofire db task_id helper_id now

/-- Witness for C1 at a concrete store with one Open task. -/
theorem accept_task_conditional_write_witness :
    (accept_task dbC1 1 7 5).1 1 =
        some { rowC1 with status := Status.Accepted, accepted_by := some 7, updated_at := 5 }
      ∧ (accept_task dbC1 1 7 5).2 = 1
      ∧ ∀ i, i ≠ 1 → (accept_task dbC1 1 7 5).1 i = dbC1 i :=
  (accept_task_conditional_write dbC1 1 7 5).1 rowC1 rfl rfl

/-- Claim C2: two accept calls with different helper ids on the same Open
task, serialised in either order by the storage layer (sqlite executes each
conditional UPDATE atomically), leave exactly one winner: the first call
matches one row and the second matches none, the final row is Accepted with
the first caller as accepter, the accepter is never null, and the accepter is
one of the two racing helpers. -/
theorem accept_race_exactly_one (db : TaskDB) (task_id h1 h2 now1 now2 : Nat) (t : TaskRow)
    (hdb : db task_id = some t) (hopen : t.status = Status.Open) (hne : h1 ≠ h2)
    (first second : Nat)
    (horder : (first = h1 ∧ second = h2) ∨ (first = h2 ∧ second = h1)) :
    (accept_task db task_id first now1).2 = 1
    ∧ (accept_task (accept_task db task_id first now1).1 task_id second now2).2 = 0
    ∧ (accept_task (accept_task db task_id first now1).1 task_id second now2).1 =
        (accept_task db task_id first now1).1
    ∧ ∀ t', (accept_task (accept_task db task_id first now1).1 task_id second now2).1 task_id =
          some t' →
        t'.status = Status.Accepted ∧ t'.accepted_by = some first ∧ t'.accepted_by ≠ none
          ∧ (t'.accepted_by = some h1 ∨ t'.accepted_by = some h2) := by
  have hfire := accept_fire db task_id first now1 t hdb hopen
  have hdb1 : (accept_task db task_id first now1).1 task_id =
      some { t with status := Status.Accepted, accepted_by := some first,
                    updated_at := now1 } := by
    rw [hfire]
    simp
  have hnofire := accept_nofire (accept_task db task_id first now1).1 task_id second now2
    (by
      intro t' ht'
      rw [hdb1] at ht'
      injection ht' with h2
      rw [← h2]
      exact fun hfalse => Status.noConfusion hfalse)
  refine ⟨by rw [hfire], by rw [hnofire], by rw [hnofire], ?_⟩
  intro t' ht'
  rw [hnofire] at ht'
  dsimp only at ht'
  rw [hdb1] at ht'
  injection ht' with h2
  subst h2
  refine ⟨rfl, rfl, by simp, ?_⟩
  rcases horder with ⟨hf, _⟩ | ⟨hf, _⟩
  · exact Or.inl (by rw [hf])
  · exact Or.inr (by rw [hf])

/-- Witness for C2: helpers 7 and 9 race on the Open task at id 4, helper 7
first. -/
theorem accept_race_exactly_one_witness :
    (accept_task dbC2 4 7 3).2 = 1
    ∧ (accept_task (accept_task dbC2 4 7 3).1 4 9 4).2 = 0
    ∧ (accept_task (accept_task dbC2 4 7 3).1 4 9 4).1 = (accept_task dbC2 4 7 3).1
    ∧ ∀ t', (accept_task (accept_task dbC2 4 7 3).1 4 9 4).1 4 = some t' →
        t'.status = Status.Accepted ∧ t'.accepted_by = some 7 ∧ t'.accepted_by ≠ none
          ∧ (t'.accepted_by = some 7 ∨ t'.accepted_by = some 9) :=
  accept_race_exactly_one dbC2 4 7 9 3 4 rowC2 rfl rfl (by decide) 7 9 (Or.inl ⟨rfl, rfl⟩)

/-- Claim C3: an accept or complete call that finds the task not in the
required source state (wrong status, or nonexistent id, both covered by the
universally quantified hypotheses) is a no-op: the store is returned
unchanged and the matched-row count 0 is the rejected result, with no
exception; in particular complete on an Open or already Completed task is
rejected with no state change. -/
theorem invalid_transition_rejected (db : TaskDB) (task_id helper_id now : Nat) :
    ((∀ t, db task_id = some t → t.status ≠ Status.Open) →
        accept_task db task_id helper_id now = (db, 0))
    ∧ ((∀ t, db task_id = some t → t.status ≠ Status.Accepted) →
        complete_task db task_id now = (db, 0)) :=
  ⟨accept_nofire db task_id helper_id now, complete_nofire db task_id now⟩

/-- Witness for C3: accept on an already Accepted task and complete on an
Open task are both rejected no-ops on a concrete store. -/
theorem invalid_transition_rejected_witness :
    accept_task dbC3 1 9 5 = (dbC3, 0) ∧ complete_task dbC3 2 5 = (dbC3, 0) :=
  ⟨(invalid_transition_rejected dbC3 1 9 5).1
      (fun t h => by
        injection (show some rowC3a = some t from h) with h2
        subst h2
        decide),
   (invalid_transition_rejected dbC3 2 9 5).2
      (fun t h => by
        injection (show some rowC3b = some t from h) with h2
        subst h2
        decide)⟩

/-- Claim C4: every store reachable from the empty table by create, accept
and complete operations satisfies the accepter-iff-status invariant, and
every single operation moves every row status only forward
(Open to Accepted to Completed, never backward) and never changes the
accepter reference of a Completed row. -/
theorem lifecycle_reachable_invariants :
    (∀ db, Reach db → Inv db)
    ∧ (∀ db db', Step db db' → ∀ id t t', db id = some t → db' id = some t' →
        statusForward t.status t'.status = true
        ∧ (t.status = Status.Completed → t'.accepted_by = t.accepted_by)) := by
  constructor
  · intro db h
    induction h with
    | init =>
        intro id t h0
        exact absurd h0 (by simp [emptyTaskDB])
    | step hr hs ih => exact step_preserves_inv ih hs
  · intro db db' hs id t t' hdb hdb'
    exact step_forward hs id t t' hdb hdb'

/-- Witness for C4: the store reached by one create and one accept satisfies
the invariant, and the concrete accept step moved the status forward while
the Completed-immutability implication holds vacuously. -/
theorem lifecycle_reachable_invariants_witness :
    Inv dbC4b
    ∧ (statusForward rowC4open.status rowC4acc.status = true
        ∧ (rowC4open.status = Status.Completed →
            rowC4acc.accepted_by = rowC4open.accepted_by)) := by
  have hreach : Reach dbC4b :=
    Reach.step
      (Reach.step Reach.init
        (Step.create emptyTaskDB 1 "Hang shelf" "two brackets and a level" "Assembly" "15"
          "02139" 3 0 rfl))
      (Step.accept dbC4a 1 7 5)
  exact ⟨lifecycle_reachable_invariants.1 dbC4b hreach,
    lifecycle_reachable_invariants.2 dbC4a dbC4b (Step.accept dbC4a 1 7 5) 1 rowC4open rowC4acc
      rfl rfl⟩

/-- Claim C10: the password verifier never succeeds on any input at all, the
round trip included, because the attribute lookup hashlib.compare_digest
raises AttributeError (the constant-time comparison lives in the hmac and
secrets modules, not in hashlib) and the bare except clause converts it to
False.  This holds for every key-derivation function, password and stored
hash, so in particular for the hash produced from the same password. -/
theorem pbkdf2_verify_always_false (f : List Nat → List Nat → List Nat)
    (password salted_hash : String) :
    _pbkdf2_verify f password salted_hash = false := by
  unfold _pbkdf2_verify _pbkdf2_verify_body
  cases splitFirst '$' salted_hash with
  | none => rfl
  | some parts =>
      cases h : bytesFromHex parts.1 <;> simp [h, hashlib_compare_digest]

theorem rowC5_score_zero : scoreOf [rowC5] "the cat" rowC5 = 0 := by
  unfold scoreOf
  rw [show analyze (taskDoc rowC5) = [] by decide]
  exact cosineScore_zero_left _ _ _ _ (fun t _ => rfl)

/-- Claim C5 counterexample: on a candidate whose document shares the stop
word the with the non-blank query "the cat", every primary score is 0.0, yet
rank_tasks_by_match returns the 0.0 score unchanged while the fallback of the
spec would score the document 1: the source has no degenerate-corpus
fallback. -/
theorem rank_fallback_counterexample :
    rank_tasks_by_match [rowC5] "the cat" = Except.ok [(rowC5, (0:ℝ))]
    ∧ specFallbackScore "the cat" (taskDoc rowC5) = 1
    ∧ ((0:ℝ) ≠ (specFallbackScore "the cat" (taskDoc rowC5) : ℝ)) := by
  refine ⟨?_, by decide, ?_⟩
  · rw [rank_eq_ok [rowC5] "the cat" (by simp) (by decide)]
    rw [show List.map (fun t => (t, scoreOf [rowC5] "the cat" t)) [rowC5] =
        [(rowC5, scoreOf [rowC5] "the cat" rowC5)] from rfl]
    rw [List.mergeSort_singleton, rowC5_score_zero]
  · rw [show specFallbackScore "the cat" (taskDoc rowC5) = 1 by decide]
    norm_num

/-- Claim C5 (amended): the source applies no fallback: when the primary
corpus-relative method yields exactly 0.0 for every candidate, the query is
non-blank and the fitted vocabulary is nonempty (so the fit succeeds), the
ranking returns every task with its primary 0.0 score, in input order, and
never the term-overlap counts. -/
theorem rank_no_fallback (tasks : List TaskRow) (q : String)
    (hq : ∃ c ∈ q.toList, ¬ c.isWhitespace = true)
    (hV : vocabFor tasks q ≠ [])
    (hzero : ∀ t ∈ tasks, scoreOf tasks q t = 0) :
    rank_tasks_by_match tasks q = Except.ok (tasks.map fun t => (t, (0:ℝ))) := by
  by_cases hne : tasks = []
  · subst hne
    unfold rank_tasks_by_match
    rw [if_pos rfl]
    rfl
  · rw [rank_eq_ok tasks q hne hV]
    have hs : ∀ t ∈ tasks, (t, scoreOf tasks q t) = (t, (0:ℝ)) := by
      intro t ht
      rw [hzero t ht]
    rw [List.map_congr_left hs, List.mergeSort_of_sorted]
    exact List.pairwise_map.mpr (pairwise_of_all _ (fun a b => by simp) tasks)

/-- Witness for C5 (amended) at the all-zero candidate and the non-blank
query "the cat". -/
theorem rank_no_fallback_witness :
    rank_tasks_by_match [rowC5] "the cat" =
      Except.ok ([rowC5].map fun t => (t, (0:ℝ))) :=
  rank_no_fallback [rowC5] "the cat" ⟨'c', by decide, by decide⟩ (by decide)
    (fun t ht => by
      rw [List.mem_singleton.mp ht]
      exact rowC5_score_zero)

/-- Claim C6 counterexample: with the blank query and a candidate whose text
holds only stop words and single characters, fit_transform raises ValueError
(empty vocabulary), so ranking returns no 0.0-scored candidate list at all. -/
theorem rank_blank_counterexample :
    rank_tasks_by_match [rowC6e] "" =
        Except.error "ValueError: empty vocabulary; perhaps the documents only contain stop words"
    ∧ ∀ l : List (TaskRow × ℝ), rank_tasks_by_match [rowC6e] "" ≠ Except.ok l := by
  have h := rank_eq_error [rowC6e] "" (by simp) (by decide)
  exact ⟨h, fun l hl => by rw [h] at hl; exact absurd hl (by simp)⟩

/-- Claim C6 (amended): for a blank (empty or whitespace-only) query, as long
as the candidate corpus yields a nonempty vocabulary (so the fit succeeds),
every task scores 0.0, no fallback exists to trigger, and the candidates come
back in input order. -/
theorem rank_blank_query (tasks : List TaskRow) (q : String)
    (hblank : ∀ c ∈ q.toList, c.isWhitespace = true)
    (hV : vocabFor tasks q ≠ []) :
    rank_tasks_by_match tasks q = Except.ok (tasks.map fun t => (t, (0:ℝ))) := by
  by_cases hne : tasks = []
  · subst hne
    unfold rank_tasks_by_match
    rw [if_pos rfl]
    rfl
  · rw [rank_eq_ok tasks q hne hV]
    have hs : ∀ t ∈ tasks, (t, scoreOf tasks q t) = (t, (0:ℝ)) := by
      intro t ht
      rw [scoreOf_blank tasks q t (analyze_blank q hblank)]
    rw [List.map_congr_left hs, List.mergeSort_of_sorted]
    exact List.pairwise_map.mpr (pairwise_of_all _ (fun a b => by simp) tasks)

/-- Witness for C6 (amended): one-space query over a candidate with real
vocabulary terms. -/
theorem rank_blank_query_witness :
    rank_tasks_by_match [rowC6w] " " = Except.ok ([rowC6w].map fun t => (t, (0:ℝ))) :=
  rank_blank_query [rowC6w] " " (by decide) (by decide)

/-- Claim C7: ranking with an empty candidate list returns the empty ordered
list for every query, before any scoring computation, and raises nothing. -/
theorem rank_empty_tasks (q : String) :
    rank_tasks_by_match [] q = Except.ok [] := by
  unfold rank_tasks_by_match
  rw [if_pos rfl]

/-- Claim C8 (amended): whenever ranking a non-empty candidate list with a
non-blank query returns a list at all (which it does exactly when the fitted
vocabulary is nonempty), that list is a permutation of the input tasks each
paired with its score, sorted by descending score, and stable: any
descending-sorted selection of the scored input pairs survives as a sublist
of the output. -/
theorem rank_sorted_stable (tasks : List TaskRow) (q : String) (l : List (TaskRow × ℝ))
    (hne : tasks ≠ []) (hq : ∃ c ∈ q.toList, ¬ c.isWhitespace = true)
    (hok : rank_tasks_by_match tasks q = Except.ok l) :
    List.Perm l (tasks.map fun t => (t, scoreOf tasks q t))
    ∧ List.Perm (l.map Prod.fst) tasks
    ∧ l.Pairwise (fun a b => b.2 ≤ a.2)
    ∧ ∀ c : List (TaskRow × ℝ), c.Pairwise (fun a b => b.2 ≤ a.2) →
        List.Sublist c (tasks.map fun t => (t, scoreOf tasks q t)) → List.Sublist c l := by
  by_cases hV : vocabFor tasks q = []
  · rw [rank_eq_error tasks q hne hV] at hok
    exact absurd hok (by simp)
  · rw [rank_eq_ok tasks q hne hV] at hok
    injection hok with h2
    subst h2
    refine ⟨List.mergeSort_perm _ _, ?_, ?_, ?_⟩
    · have hp := (List.mergeSort_perm (tasks.map fun t => (t, scoreOf tasks q t))
        (fun a b => decide (b.2 ≤ a.2))).map Prod.fst
      rw [map_fst_pairs] at hp
      exact hp
    · exact (List.sorted_mergeSort rankLE_trans rankLE_total
        (tasks.map fun t => (t, scoreOf tasks q t))).imp fun h => of_decide_eq_true h
    · intro c hc hsub
      exact List.sublist_mergeSort rankLE_trans rankLE_total
        (hc.imp fun h => decide_eq_true h) hsub

/-- Evaluation of the ranking on the single-candidate furniture-assembly
fixture, used to discharge the returned-list hypothesis of the witness. -/
theorem rank_rowC8w :
    rank_tasks_by_match [rowC8w] "furniture assembly" =
      Except.ok [(rowC8w, scoreOf [rowC8w] "furniture assembly" rowC8w)] := by
  rw [rank_eq_ok [rowC8w] "furniture assembly" (by simp) (by decide)]
  simp

/-- Witness for C8 (amended) on the furniture-assembly fixture. -/
theorem rank_sorted_stable_witness :
    List.Perm [(rowC8w, scoreOf [rowC8w] "furniture assembly" rowC8w)]
      ([rowC8w].map fun t => (t, scoreOf [rowC8w] "furniture assembly" t))
    ∧ List.Perm ([(rowC8w, scoreOf [rowC8w] "furniture assembly" rowC8w)].map Prod.fst) [rowC8w]
    ∧ List.Pairwise (fun a b => b.2 ≤ a.2)
        [(rowC8w, scoreOf [rowC8w] "furniture assembly" rowC8w)]
    ∧ ∀ c : List (TaskRow × ℝ), c.Pairwise (fun a b => b.2 ≤ a.2) →
        List.Sublist c ([rowC8w].map fun t => (t, scoreOf [rowC8w] "furniture assembly" t)) →
        List.Sublist c [(rowC8w, scoreOf [rowC8w] "furniture assembly" rowC8w)] :=
  rank_sorted_stable [rowC8w] "furniture assembly"
    [(rowC8w, scoreOf [rowC8w] "furniture assembly" rowC8w)]
    (by simp) ⟨'f', by decide, by decide⟩ rank_rowC8w

/-- Claim C8 counterexample: a non-empty candidate list and a non-blank query
made of stop words leave the vocabulary empty, fit_transform raises, and no
sorted permutation is returned. -/
theorem rank_sorted_counterexample :
    rank_tasks_by_match [rowC8e] "the of" =
        Except.error "ValueError: empty vocabulary; perhaps the documents only contain stop words"
    ∧ ([rowC8e] ≠ ([] : List TaskRow))
    ∧ (∃ c ∈ "the of".toList, ¬ c.isWhitespace = true)
    ∧ ∀ l : List (TaskRow × ℝ), rank_tasks_by_match [rowC8e] "the of" ≠ Except.ok l := by
  have h := rank_eq_error [rowC8e] "the of" (by simp) (by decide)
  exact ⟨h, by simp, ⟨'t', by decide, by decide⟩,
    fun l hl => by rw [h] at hl; exact absurd hl (by simp)⟩

/-- Claim C9 (amended): the ranking computation is total except in the one
raising case: whenever the candidate list is empty or the fitted vocabulary
is nonempty, rank_tasks_by_match returns a scored list and no error. -/
theorem rank_total_unless_empty_vocab (tasks : List TaskRow) (q : String)
    (h : tasks = [] ∨ vocabFor tasks q ≠ []) :
    ∃ l, rank_tasks_by_match tasks q = Except.ok l := by
  by_cases hne : tasks = []
  · subst hne
    exact ⟨[], by unfold rank_tasks_by_match; rw [if_pos rfl]⟩
  · rcases h with h | h
    · exact absurd h hne
    · exact ⟨_, rank_eq_ok tasks q hne h⟩

/-- Witness for C9 (amended) on a candidate with real vocabulary terms. -/
theorem rank_total_unless_empty_vocab_witness :
    ∃ l, rank_tasks_by_match [rowC9w] "tidy" = Except.ok l :=
  rank_total_unless_empty_vocab [rowC9w] "tidy" (Or.inr (by decide))

/-- Claim C9 counterexample: on well-formed string inputs made only of stop
words and short tokens, the pipeline raises ValueError instead of returning:
the Scorer/Ranker pipeline is not total over arbitrary text. -/
theorem rank_total_counterexample :
    rank_tasks_by_match [rowC9e] "the and" =
        Except.error "ValueError: empty vocabulary; perhaps the documents only contain stop words"
    ∧ ∀ l : List (TaskRow × ℝ), rank_tasks_by_match [rowC9e] "the and" ≠ Except.ok l := by
  have h := rank_eq_error [rowC9e] "the and" (by simp) (by decide)
  exact ⟨h, fun l hl => by rw [h] at hl; exact absurd hl (by simp)⟩

end NearDoer
